import Mathlib

/-!
# Verification of the Silver Analysis Dashboard core logic

Shallow embedding of the computational core of `src/app.py`:
the synthetic daily-purchase generator (`load_india_january_data`),
the state-wise January breakdown (`load_state_wise_january_breakdown`),
the percentage-share computation, the regional rollup (`regional_df`),
the weekly rollup (`weekly_data`), and the filtered price statistics.

Floating-point quantities are modelled as exact rationals; the pandas /
numpy rounding functions (`round`, `.round(n)`) use round-half-to-even,
which is modelled exactly.  The Python global `random` generator
(a Mersenne Twister in CPython) is modelled by a deterministic
linear-congruential generator over `ℕ`: every claim settled below
depends only on the generator being a deterministic function of its
seed and on `uniform lo hi` landing in `[lo, hi]`, which the model
shares with the real generator.
-/

namespace SilverDash

/-! ## Model of the Python global `random` generator -/

/-- Modulus of the model generator's state space. -/
def rngM : ℕ := 2147483648

/-- One step of the model generator (a classic linear-congruential update),
standing in for one draw advancing the Mersenne-Twister state. -/
def rngNext (s : ℕ) : ℕ := (1103515245 * s + 12345) % rngM

/-- `random.seed n`: the generator state is a deterministic function of the
seed alone; the previous state is discarded. -/
def seedState (n : ℕ) : ℕ := n % rngM

/-- `random.uniform lo hi`: advances the generator state and returns a value
in `[lo, hi]`, scaled from the fresh state. -/
def uniform (lo hi : ℚ) (s : ℕ) : ℚ × ℕ :=
  let s' := rngNext s
  (lo + (hi - lo) * (s' : ℚ) / (rngM : ℚ), s')

/-! ## Round-half-to-even (banker's rounding), as used by Python `round`
and pandas `.round(n)` -/

/-- Round a rational to the nearest integer, ties to the even integer
(the semantics of Python's built-in `round` and of numpy/pandas rounding). -/
def roundHalfEven (q : ℚ) : ℤ :=
  if q - (⌊q⌋ : ℚ) < 1 / 2 then ⌊q⌋
  else if 1 / 2 < q - (⌊q⌋ : ℚ) then ⌊q⌋ + 1
  else if ⌊q⌋ % 2 = 0 then ⌊q⌋ else ⌊q⌋ + 1

/-- Python `round(x, 1)`. -/
def round1 (q : ℚ) : ℚ := (roundHalfEven (10 * q) : ℚ) / 10

/-- pandas `.round(2)`. -/
def round2 (q : ℚ) : ℚ := (roundHalfEven (100 * q) : ℚ) / 100

/-! ## The daily generator `load_india_january_data` (src/app.py lines 36-85) -/

/-- pandas `dayofweek` (Monday = 0) for 2026-01-`d`.
2026-01-01 is a Thursday, i.e. weekday 3, so day `d` has weekday
`(3 + (d - 1)) % 7 = (d + 2) % 7`. -/
def dayOfWeek (d : ℕ) : ℕ := (d + 2) % 7

/-- Loop body of `load_india_january_data` (src/app.py lines 50-76) for the
day 2026-01-`d`, threading the global generator state `s0`:
base 592, plus a `uniform 90 150` weekend boost when `dayofweek ≥ 5`,
plus a `uniform 120 180` mid-month boost when `14 ≤ day ≤ 16`,
plus a `uniform 150 210` month-end boost when `day ≥ 26`,
plus 200 on the 26th (Republic Day) and 150 on the 1st (New Year),
plus `uniform (-50) 100` daily noise, the total rounded to 1 decimal.
A draw is taken (advancing the state) only when its condition holds,
exactly as in the source. -/
def purchaseOfDay (d : ℕ) (s0 : ℕ) : ℚ × ℕ :=
  let a := if 5 ≤ dayOfWeek d then uniform 90 150 s0 else (0, s0)
  let b := if 14 ≤ d ∧ d ≤ 16 then uniform 120 180 a.2 else (0, a.2)
  let c := if 26 ≤ d then uniform 150 210 b.2 else (0, b.2)
  let e := uniform (-50) 100 c.2
  (round1 (592 + a.1 + b.1 + c.1 + (if d = 26 then (200 : ℚ) else 0)
      + (if d = 1 then (150 : ℚ) else 0) + e.1), e.2)

/-- `pd.date_range('2026-01-01', '2026-01-30')`: the days 1..30 of January
(both endpoints included, 30 days). -/
def janDays : List ℕ := List.range' 1 30

/-- The body of `load_india_january_data`: seed the global generator with 42,
then generate one `(day, Purchase_KG)` entry per day of the window, in
order, threading the generator state.  Returns the entry list together
with the final global generator state. -/
def janRun : List (ℕ × ℚ) × ℕ :=
  janDays.foldl
    (fun acc d =>
      let r := purchaseOfDay d acc.2
      (acc.1 ++ [(d, r.1)], r.2))
    ([], seedState 42)

/-- `load_india_january_data()`: the generated daily table, as
`(day-of-month, Purchase_KG)` rows. -/
def load_india_january_data : List (ℕ × ℚ) := janRun.1

/-- `load_india_january_data` as seen by the global-generator state:
the caller's ambient generator state `g` is read, but `random.seed(42)`
immediately overwrites it, so the result (and the post-call global state)
does not depend on `g`. -/
def load_india_january_data_from (g : ℕ) : List (ℕ × ℚ) × ℕ := janRun

/-- Generator state just before the day `n + 1` is generated
(state threading of the loop, made explicit). -/
def janState : ℕ → ℕ
  | 0 => seedState 42
  | n + 1 => (purchaseOfDay (n + 1) (janState n)).2

/-! ## `load_state_wise_january_breakdown` (src/app.py lines 87-100) -/

/-- Line 95: the `Percentage` column,
`(state_sales_df['Silver_Purchased_kg'] / total_purchases * 100).round(2)`,
applied to a column of state quantities (`total_purchases` is the column
sum).  Exact-rational model of the nonzero-total case. -/
def percentageShares (vals : List ℚ) : List ℚ :=
  vals.map (fun v => round2 (v / vals.sum * 100))

/-- Line 98: the `Jan_2026_Purchase_KG` column,
`(state_sales_df['Silver_Purchased_kg'] / 12 * 1.1).round(0).astype(int)`,
per state quantity `v`. -/
def jan_2026_purchase (v : ℚ) : ℤ := roundHalfEven (v / 12 * (11 / 10))

/-- The claimed monthly seasonal distribution, modelled from the spec's words
(`distribute_monthly`): month `i` receives `annual_total * weights[i] / sum(weights)`.
This definition exists only to be compared with the code's derivation
`jan_2026_purchase`; no 12-entry weight table occurs in the source. -/
def distribute_monthly (annual_total : ℚ) (weights : Fin 12 → ℚ) (i : Fin 12) : ℚ :=
  annual_total * weights i / (∑ j, weights j)

/-! ## IEEE-754-style division, as performed by pandas / numpy

`Series / 0` does not raise in pandas: it produces `inf` (positive
numerator), `-inf` (negative numerator) or `NaN` (`0/0`), with at most a
runtime warning.  The non-finite results are modelled symbolically. -/

/-- A pandas float result: either an exact finite rational or one of the
non-finite IEEE values produced by division by zero. -/
inductive PFloat where
  | finite (q : ℚ)
  | inf
  | neginf
  | nan
deriving DecidableEq

/-- numpy division `a / b`: ordinary division for `b ≠ 0`; for `b = 0`
the IEEE results `NaN` (when `a = 0`) or `±inf` (sign of `a`).
No exception is raised in any case. -/
def divFloat (a b : ℚ) : PFloat :=
  if b = 0 then
    (if a = 0 then .nan else if 0 < a then .inf else .neginf)
  else .finite (a / b)

/-- Multiplication of a pandas float by the positive constant 100. -/
def mul100Float : PFloat → PFloat
  | .finite q => .finite (q * 100)
  | .inf => .inf
  | .neginf => .neginf
  | .nan => .nan

/-- pandas `.round(2)` on a possibly non-finite value
(`inf`, `-inf`, `NaN` round to themselves). -/
def round2Float : PFloat → PFloat
  | .finite q => .finite (round2 q)
  | .inf => .inf
  | .neginf => .neginf
  | .nan => .nan

/-- `share_of_total(value, total)`: the per-row computation of line 95
(and lines 389-392), `value / total * 100` rounded to 2 decimals, with the
pandas division-by-zero semantics made explicit. -/
def share_of_total (value total : ℚ) : PFloat :=
  round2Float (mul100Float (divFloat value total))

/-! ## The regional rollup (src/app.py lines 592-608) -/

/-- The hardcoded region map of lines 592-601. -/
def regions : List (String × List String) :=
  [("South", ["Andhra Pradesh", "Karnataka", "Kerala", "Tamil Nadu", "Telangana"]),
   ("West", ["Gujarat", "Maharashtra", "Goa"]),
   ("North", ["Delhi", "Haryana", "Himachal Pradesh", "Jammu & Kashmir",
              "Punjab", "Rajasthan", "Uttarakhand", "Ladakh"]),
   ("East", ["Bihar", "Jharkhand", "Odisha", "West Bengal"]),
   ("Central", ["Chhattisgarh", "Madhya Pradesh", "Uttar Pradesh"]),
   ("North-East", ["Arunachal Pradesh", "Assam", "Manipur", "Meghalaya",
                   "Mizoram", "Nagaland", "Sikkim", "Tripura"])]

/-- Line 605: `state_sales[state_sales['State'].isin(states_list)]['Silver_Purchased_kg'].sum()`:
total quantity of the rows whose state name is in `sts`. -/
def regionTotal (rows : List (String × ℚ)) (sts : List String) : ℚ :=
  ((rows.filter (fun s => sts.contains s.1)).map (fun s => s.2)).sum

/-- Lines 603-606: one `(Region, Total_Purchase_kg)` row per region,
in map order, before sorting. -/
def regionalRaw (rows : List (String × ℚ)) : List (String × ℚ) :=
  regions.map (fun r => (r.1, regionTotal rows r.2))

/-- Descending order on the per-region totals
(`sort_values('Total_Purchase_kg', ascending=False)`). -/
def regOrder (a b : String × ℚ) : Prop := b.2 ≤ a.2

instance : DecidableRel regOrder := fun a b => inferInstanceAs (Decidable (b.2 ≤ a.2))

instance : IsTotal (String × ℚ) regOrder := ⟨fun a b => le_total b.2 a.2⟩

instance : IsTrans (String × ℚ) regOrder := ⟨fun _ _ _ h1 h2 => le_trans h2 h1⟩

/-- Line 608: `regional_df`, the per-region totals sorted descending by total. -/
def regional_df (rows : List (String × ℚ)) : List (String × ℚ) :=
  (regionalRaw rows).insertionSort regOrder

/-- A state name appears in some region's set. -/
def inRegionMap (name : String) : Bool :=
  regions.any (fun r => r.2.contains name)

/-! ## The weekly rollup (src/app.py lines 499-506) -/

/-- `Date.dt.isocalendar().week` for 2026-01-`d`: 2026-01-01 (a Thursday)
lies in ISO week 1 (Mon 2025-12-29 .. Sun 2026-01-04), so day `d` lies in
ISO week `(d + 2) / 7 + 1`. -/
def isoWeek (d : ℕ) : ℕ := (d + 2) / 7 + 1

/-- Line 500, key extraction plus `groupby('Week')`: the distinct week ids,
ascending (pandas `groupby` sorts its keys). -/
def weekKeys (rows : List (ℕ × ℚ)) : List ℕ :=
  ((rows.map (fun r => isoWeek r.1)).dedup).insertionSort (· ≤ ·)

/-- Line 500: `groupby('Week')['Purchase_KG'].agg(['sum', 'mean', 'count'])`:
for each week id in ascending order, the `(week, (sum, mean, count))` row
over exactly the entries of that week. -/
def weekly_data (rows : List (ℕ × ℚ)) : List (ℕ × ℚ × ℚ × ℕ) :=
  (weekKeys rows).map (fun w =>
    let grp := (rows.filter (fun r => isoWeek r.1 == w)).map (fun r => r.2)
    (w, (grp.sum, grp.sum / (grp.length : ℚ), grp.length)))

/-! ## Filtered price statistics (src/app.py lines 247-261) -/

/-- What a `st.metric` call displays: a computed value (possibly a
non-finite float, which is formatted as `nan`/`inf`) or the literal
string `"N/A"`. -/
inductive MetricDisplay where
  | value (p : PFloat)
  | na
deriving DecidableEq

/-- pandas `Series.max()`: `NaN` on an empty series. -/
def seriesMax : List ℚ → PFloat
  | [] => .nan
  | x :: xs => .finite (xs.foldl max x)

/-- pandas `Series.min()`: `NaN` on an empty series. -/
def seriesMin : List ℚ → PFloat
  | [] => .nan
  | x :: xs => .finite (xs.foldl min x)

/-- pandas `Series.mean()`: `NaN` on an empty series. -/
def seriesMean : List ℚ → PFloat
  | [] => .nan
  | x :: xs => .finite ((x :: xs).sum / ((x :: xs).length : ℚ))

/-- Line 249: the "Highest Price" metric — computed unconditionally. -/
def maxMetric (prices : List ℚ) : MetricDisplay := .value (seriesMax prices)

/-- Line 251: the "Lowest Price" metric — computed unconditionally. -/
def minMetric (prices : List ℚ) : MetricDisplay := .value (seriesMin prices)

/-- Line 253: the "Average Price" metric — computed unconditionally. -/
def meanMetric (prices : List ℚ) : MetricDisplay := .value (seriesMean prices)

/-- Lines 255-261: the "Change %" metric — guarded by `len(filtered_data) > 1`,
otherwise displayed as `"N/A"`. -/
def changeMetric (prices : List ℚ) : MetricDisplay :=
  if 1 < prices.length then
    .value (.finite ((prices.getLastD 0 - prices.headD 0) / prices.headD 0 * 100))
  else .na

/-! ## Helper lemmas: rounding -/

theorem floor_le_roundHalfEven (q : ℚ) : ⌊q⌋ ≤ roundHalfEven q := by
  unfold roundHalfEven
  split
  · omega
  · split
    · omega
    · split <;> omega

theorem roundHalfEven_le_floor_add_one (q : ℚ) : roundHalfEven q ≤ ⌊q⌋ + 1 := by
  unfold roundHalfEven
  split
  · omega
  · split
    · omega
    · split <;> omega

theorem abs_roundHalfEven_sub (q : ℚ) : |(roundHalfEven q : ℚ) - q| ≤ 1 / 2 := by
  have hfl : (⌊q⌋ : ℚ) ≤ q := Int.floor_le q
  have hfu : q < (⌊q⌋ : ℚ) + 1 := Int.lt_floor_add_one q
  unfold roundHalfEven
  split
  · rename_i h
    rw [abs_le]
    constructor <;> linarith
  · rename_i h
    push_neg at h
    split
    · rename_i h'
      rw [abs_le]
      push_cast
      constructor <;> linarith
    · rename_i h'
      push_neg at h'
      split
      · rw [abs_le]
        constructor <;> linarith
      · rw [abs_le]
        push_cast
        constructor <;> linarith

theorem le_roundHalfEven_of_le (m : ℤ) (q : ℚ) (h : (m : ℚ) ≤ q) :
    m ≤ roundHalfEven q :=
  le_trans (Int.le_floor.2 h) (floor_le_roundHalfEven q)

theorem roundHalfEven_nonneg (q : ℚ) (h : 0 ≤ q) : 0 ≤ roundHalfEven q :=
  le_roundHalfEven_of_le 0 q (by exact_mod_cast h)

theorem le_round1_of_le (m : ℤ) (q : ℚ) (h : (m : ℚ) ≤ q) : (m : ℚ) ≤ round1 q := by
  unfold round1
  have h10 : ((10 * m : ℤ) : ℚ) ≤ 10 * q := by push_cast; linarith
  have h2 : ((10 * m : ℤ) : ℚ) ≤ (roundHalfEven (10 * q) : ℚ) := by
    exact_mod_cast le_roundHalfEven_of_le (10 * m) (10 * q) h10
  rw [le_div_iff (by norm_num : (0 : ℚ) < 10)]
  push_cast at h2
  linarith

theorem abs_round2_sub (q : ℚ) : |round2 q - q| ≤ 1 / 200 := by
  have h := abs_roundHalfEven_sub (100 * q)
  have heq : round2 q - q = ((roundHalfEven (100 * q) : ℚ) - 100 * q) / 100 := by
    unfold round2; ring
  rw [heq, abs_div, abs_of_pos (by norm_num : (0 : ℚ) < (100 : ℚ))]
  rw [div_le_iff (by norm_num : (0 : ℚ) < (100 : ℚ))]
  linarith

/-! ## Helper lemmas: the generator -/

theorem uniform_mem {lo hi : ℚ} (h : lo ≤ hi) (s : ℕ) :
    lo ≤ (uniform lo hi s).1 ∧ (uniform lo hi s).1 ≤ hi := by
  have hM : (0 : ℚ) < (rngM : ℚ) := by
    have : (0 : ℕ) < rngM := Nat.pos_of_ne_zero (by simp [rngM])
    exact_mod_cast this
  have hlt : rngNext s < rngM := by
    unfold rngNext
    exact Nat.mod_lt _ (Nat.pos_of_ne_zero (by simp [rngM]))
  have hle : ((rngNext s : ℕ) : ℚ) ≤ (rngM : ℚ) := by exact_mod_cast hlt.le
  have hnn : (0 : ℚ) ≤ ((rngNext s : ℕ) : ℚ) := Nat.cast_nonneg _
  unfold uniform
  constructor
  · have : (0 : ℚ) ≤ (hi - lo) * ((rngNext s : ℕ) : ℚ) / (rngM : ℚ) :=
      div_nonneg (mul_nonneg (by linarith) hnn) hM.le
    show lo ≤ lo + (hi - lo) * ((rngNext s : ℕ) : ℚ) / (rngM : ℚ)
    linarith
  · have h2 : (hi - lo) * ((rngNext s : ℕ) : ℚ) / (rngM : ℚ) ≤ hi - lo := by
      rw [div_le_iff hM]
      exact mul_le_mul_of_nonneg_left hle (by linarith)
    show lo + (hi - lo) * ((rngNext s : ℕ) : ℚ) / (rngM : ℚ) ≤ hi
    linarith

/-- The loop body produces exactly the additive stack of the claimed boosts:
a weekend boost in [90, 150] (0 on weekdays), a mid-month boost in
[120, 180] (0 outside days 14-16), a month-end boost in [150, 210]
(0 before the 26th), the two fixed holiday constants, and a noise term in
[-50, 100], the whole rounded to one decimal. -/
theorem purchaseOfDay_decomp (d s0 : ℕ) :
    ∃ wk mid mend nz : ℚ,
      (if 5 ≤ dayOfWeek d then 90 ≤ wk ∧ wk ≤ 150 else wk = 0) ∧
      (if 14 ≤ d ∧ d ≤ 16 then 120 ≤ mid ∧ mid ≤ 180 else mid = 0) ∧
      (if 26 ≤ d then 150 ≤ mend ∧ mend ≤ 210 else mend = 0) ∧
      ((-50 : ℚ) ≤ nz ∧ nz ≤ 100) ∧
      (purchaseOfDay d s0).1 =
        round1 (592 + wk + mid + mend + (if d = 26 then (200 : ℚ) else 0) +
          (if d = 1 then (150 : ℚ) else 0) + nz) := by
  by_cases h1 : 5 ≤ dayOfWeek d <;> by_cases h2 : 14 ≤ d ∧ d ≤ 16 <;> by_cases h3 : 26 ≤ d <;>
    simp only [purchaseOfDay, h1, h2, h3, if_true, if_false, ite_true, ite_false,
      not_false_iff, not_true] <;>
    refine ⟨_, _, _, _, ?_, ?_, ?_, ?_, rfl⟩ <;>
    first
      | exact uniform_mem (by norm_num) _
      | rfl

/-- The fold of `janRun` laid out day by day: entry `n` (0-based) is day
`n + 1` generated from the threaded state `janState n`. -/
theorem janRun_eq_map : load_india_january_data
    = (List.range 30).map (fun n => (n + 1, (purchaseOfDay (n + 1) (janState n)).1)) := by
  decide!

/-! ## Claim theorems -/

/-- C2 (confirmed): for the window 2026-01-01..2026-01-30,
`load_india_january_data` returns exactly 30 entries — one per calendar
day, not 31 — in ascending calendar order, and each day's quantity is the
fixed base 592 plus, stacked additively with no cap: a uniform boost in
[90, 150] exactly on the two weekend days, a uniform boost in [120, 180]
exactly on days 14-16, a uniform boost in [150, 210] exactly on days ≥ 26,
the fixed constant 200 on January 26 and 150 on January 1, and a uniform
noise term in [-50, 100] that may be negative (the total rounded to one
decimal, as in the source). -/
theorem c2_daily_window_structure :
    load_india_january_data.length = 30 ∧
    load_india_january_data.map Prod.fst = List.range' 1 30 ∧
    ∀ i : Fin 30, ∃ wk mid mend nz : ℚ,
      (if 5 ≤ dayOfWeek (i.1 + 1) then 90 ≤ wk ∧ wk ≤ 150 else wk = 0) ∧
      (if 14 ≤ i.1 + 1 ∧ i.1 + 1 ≤ 16 then 120 ≤ mid ∧ mid ≤ 180 else mid = 0) ∧
      (if 26 ≤ i.1 + 1 then 150 ≤ mend ∧ mend ≤ 210 else mend = 0) ∧
      ((-50 : ℚ) ≤ nz ∧ nz ≤ 100) ∧
      load_india_january_data[(i : ℕ)]? =
        some (i.1 + 1, round1 (592 + wk + mid + mend + (if i.1 + 1 = 26 then (200 : ℚ) else 0) +
          (if i.1 + 1 = 1 then (150 : ℚ) else 0) + nz)) := by
  refine ⟨by decide!, by decide!, ?_⟩
  intro i
  obtain ⟨wk, mid, mend, nz, hwk, hmid, hmend, hnz, heq⟩ :=
    purchaseOfDay_decomp (i.1 + 1) (janState i.1)
  refine ⟨wk, mid, mend, nz, hwk, hmid, hmend, hnz, ?_⟩
  rw [janRun_eq_map, List.getElem?_map, List.getElem?_range i.isLt]
  simp [heq]

/-- C3 (confirmed): `load_india_january_data` is deterministic — it takes
no arguments and reseeds the generator with the fixed constant 42 on each
call, so two invocations (from arbitrary ambient generator states) produce
bit-identical output sequences. -/
theorem c3_deterministic (g1 g2 : ℕ) :
    (load_india_january_data_from g1).1 = (load_india_january_data_from g2).1 ∧
    (load_india_january_data_from g1).1 = load_india_january_data :=
  ⟨rfl, rfl⟩

/-- C4 counterexample: in the (deterministic, seeded) run the code actually
performs, every generated daily quantity is ≥ 542 > 0 — no day's quantity
is below zero, contradicting the claim that the noise can drive some
day's quantity below zero. -/
theorem c4_counterexample :
    load_india_january_data.all (fun e => decide ((542 : ℚ) ≤ e.2)) = true := by
  decide!

/-- C4 (corrected): the output is indeed not clamped, but it does have a
lower bound: the base is 592, every boost is nonnegative, and the noise is
at least -50, so every possible daily quantity — for any day and any
generator state — is at least 542, hence strictly positive; the noise can
never drive a quantity below zero. -/
theorem c4_lower_bound (d s : ℕ) : (542 : ℚ) ≤ (purchaseOfDay d s).1 := by
  obtain ⟨wk, mid, mend, nz, hwk, hmid, hmend, hnz, heq⟩ := purchaseOfDay_decomp d s
  have h0wk : 0 ≤ wk := by
    split at hwk
    · linarith [hwk.1]
    · simp [hwk]
  have h0mid : 0 ≤ mid := by
    split at hmid
    · linarith [hmid.1]
    · simp [hmid]
  have h0mend : 0 ≤ mend := by
    split at hmend
    · linarith [hmend.1]
    · simp [hmend]
  have h26 : (0 : ℚ) ≤ if d = 26 then (200 : ℚ) else 0 := by split <;> norm_num
  have h1 : (0 : ℚ) ≤ if d = 1 then (150 : ℚ) else 0 := by split <;> norm_num
  rw [heq]
  have hsum : (542 : ℚ) ≤ 592 + wk + mid + mend + (if d = 26 then (200 : ℚ) else 0) +
      (if d = 1 then (150 : ℚ) else 0) + nz := by linarith [hnz.1]
  have := le_round1_of_le 542 _ (by exact_mod_cast hsum)
  exact_mod_cast this

/-- C5 counterexample: calling `load_india_january_data` does not leave the
ambient global generator state unchanged — starting from state 12345, the
post-call global state differs from 12345 (the call reseeds the shared
global generator with 42 and advances it). -/
theorem c5_counterexample : (load_india_january_data_from 12345).2 ≠ 12345 := by
  decide!

/-- C5 (corrected): the call does not isolate its random stream — it
reseeds the shared global generator with the fixed constant 42, so the
post-call global generator state is a fixed constant, independent of (and
in general different from) the caller's prior state: every other caller's
subsequent random sequence is clobbered deterministically rather than
left unchanged. -/
theorem c5_state_clobbered (g1 g2 : ℕ) :
    (load_india_january_data_from g1).2 = (load_india_january_data_from g2).2 ∧
    (load_india_january_data_from g1).2 = janRun.2 :=
  ⟨rfl, rfl⟩

/-- C1 counterexample: with annual total 120 and the all-positive weight
vector of twelve ones, the claimed distribution gives January
`120 * 1 / 12 = 10`, but the code's January derivation
(`(v / 12 * 1.1).round(0)`, line 98) gives 11 — the code's single-month
derivation is not `annual_total * weights[i] / sum(weights)`. -/
theorem c1_counterexample :
    ((jan_2026_purchase 120 : ℤ) : ℚ) ≠ distribute_monthly 120 (fun _ => 1) 0 := by
  have h1 : jan_2026_purchase 120 = 11 := by decide!
  have h2 : distribute_monthly 120 (fun _ => 1) 0 = 10 := by
    unfold distribute_monthly
    norm_num
  rw [h1, h2]
  norm_num

/-- C1 (corrected): `load_state_wise_january_breakdown` does not produce a
12-entry weighted monthly distribution; it derives a single January
quantity per state, `round(annual / 12 * 1.1)` cast to int (one twelfth of
the annual total with a fixed 10% seasonal boost).  That quantity is
nonnegative for nonnegative annual totals and is within 1/2 of
`annual * 11 / 120`; in particular twelve months at this rate would sum to
`1.1 * annual`, not the annual total. -/
theorem c1_jan_breakdown (v : ℚ) (hv : 0 ≤ v) :
    0 ≤ jan_2026_purchase v ∧
    |((jan_2026_purchase v : ℤ) : ℚ) - v * 11 / 120| ≤ 1 / 2 ∧
    (12 : ℚ) * (v / 12 * (11 / 10)) = 11 / 10 * v := by
  refine ⟨?_, ?_, by ring⟩
  · apply roundHalfEven_nonneg
    have h12 : (0 : ℚ) ≤ v / 12 := div_nonneg hv (by norm_num)
    exact mul_nonneg h12 (by norm_num)
  · have heq : v / 12 * (11 / 10) = v * 11 / 120 := by ring
    unfold jan_2026_purchase
    rw [heq]
    exact abs_roundHalfEven_sub _

/-- C1 witness: the amended statement evaluated at annual total 120. -/
theorem c1_witness :
    0 ≤ jan_2026_purchase 120 ∧
    |((jan_2026_purchase 120 : ℤ) : ℚ) - 120 * 11 / 120| ≤ 1 / 2 ∧
    (12 : ℚ) * (120 / 12 * (11 / 10)) = 11 / 10 * 120 :=
  c1_jan_breakdown 120 (by norm_num)

/-- C6 counterexample: at value 5 and total 0, the share computation
produces the non-finite float `inf` — it neither returns zero nor raises:
pandas division by a zero total silently yields `inf`/`NaN`. -/
theorem c6_counterexample :
    share_of_total 5 0 = PFloat.inf ∧ PFloat.inf ≠ PFloat.finite 0 := by
  decide!

/-- C6 (corrected): for every nonzero total, `share_of_total` returns
`value / total * 100` rounded to 2 decimals; but when the total is zero it
does not fail — the pandas division silently produces the non-finite
values `inf` (positive value), `-inf` (negative value) or `NaN`
(zero value), never zero and never a `DivisionByZero` exception. -/
theorem c6_share_of_total (v t : ℚ) :
    (t ≠ 0 → share_of_total v t = PFloat.finite (round2 (v / t * 100))) ∧
    (0 < v → share_of_total v 0 = PFloat.inf) ∧
    (v < 0 → share_of_total v 0 = PFloat.neginf) ∧
    share_of_total 0 0 = PFloat.nan := by
  refine ⟨?_, ?_, ?_, ?_⟩
  · intro ht
    simp [share_of_total, divFloat, mul100Float, round2Float, ht]
  · intro hv
    have hne : v ≠ 0 := ne_of_gt hv
    simp [share_of_total, divFloat, mul100Float, round2Float, hne, hv]
  · intro hv
    have hne : v ≠ 0 := ne_of_lt hv
    have hnp : ¬ 0 < v := not_lt.2 hv.le
    simp [share_of_total, divFloat, mul100Float, round2Float, hne, hnp]
  · simp [share_of_total, divFloat, mul100Float, round2Float]

/-- C6 witness: the theorem applied at `(5, 2)` (nonzero total) and at
`(5, 0)` (zero total). -/
theorem c6_witness :
    share_of_total 5 2 = PFloat.finite (round2 (5 / 2 * 100)) ∧
    share_of_total 5 0 = PFloat.inf :=
  ⟨(c6_share_of_total 5 2).1 (by norm_num), (c6_share_of_total 5 0).2.1 (by norm_num)⟩

/-- Summed rounding error of `.round(2)` over a list grows at most like
`length / 200`. -/
theorem sum_map_round2_err (l : List ℚ) :
    |(l.map round2).sum - l.sum| ≤ (l.length : ℚ) / 200 := by
  induction l with
  | nil => simp
  | cons x xs ih =>
      have hx := abs_round2_sub x
      simp only [List.map_cons, List.sum_cons, List.length_cons]
      have hre : round2 x + (xs.map round2).sum - (x + xs.sum)
          = (round2 x - x) + ((xs.map round2).sum - xs.sum) := by ring
      rw [hre]
      calc |(round2 x - x) + ((xs.map round2).sum - xs.sum)|
          ≤ |round2 x - x| + |(xs.map round2).sum - xs.sum| := abs_add _ _
        _ ≤ 1 / 200 + (xs.length : ℚ) / 200 := add_le_add hx ih
        _ = ((xs.length + 1 : ℕ) : ℚ) / 200 := by push_cast; ring

/-- Distributing the shared total out of a mapped sum. -/
theorem sum_map_div_mul (l : List ℚ) (t : ℚ) :
    (l.map (fun v => v / t * 100)).sum = l.sum / t * 100 := by
  induction l with
  | nil => simp
  | cons x xs ih =>
      simp only [List.map_cons, List.sum_cons, ih]
      ring

/-- C7 counterexample: a 12-row table (11 rows of 8.02 and one of 311.78,
total 400, all positive) whose rounded shares are 11 × 2.00 and 77.94,
summing to 99.94 — off from 100.00 by 0.06, outside the claimed ±0.05
tolerance although the table has at most 100 rows. -/
theorem c7_counterexample :
    (0 : ℚ) < (List.replicate 11 ((802 : ℚ) / 100) ++ [(31178 : ℚ) / 100]).sum ∧
    (List.replicate 11 ((802 : ℚ) / 100) ++ [(31178 : ℚ) / 100]).length ≤ 100 ∧
    ¬ |(percentageShares (List.replicate 11 ((802 : ℚ) / 100) ++ [(31178 : ℚ) / 100])).sum
        - 100| ≤ 5 / 100 := by
  decide!

/-- C7 (corrected): the correct tolerance is per-row: each rounded share is
within 1/200 of its true value, so for a table with positive total the
rounded shares sum to 100 within `length / 200` (= 0.5 for 100 rows, not
0.05). -/
theorem c7_shares_sum (vals : List ℚ) (h : 0 < vals.sum) :
    |(percentageShares vals).sum - 100| ≤ (vals.length : ℚ) / 200 := by
  have hne : vals.sum ≠ 0 := ne_of_gt h
  have h1 : percentageShares vals = (vals.map (fun v => v / vals.sum * 100)).map round2 := by
    rw [List.map_map]
    rfl
  have h2 := sum_map_round2_err (vals.map (fun v => v / vals.sum * 100))
  rw [sum_map_div_mul, div_self hne, one_mul, List.length_map] at h2
  rw [h1]
  exact h2

/-- C7 witness: the amended bound evaluated on the two-row table `[1, 1]`. -/
theorem c7_witness :
    (0 : ℚ) < ([1, 1] : List ℚ).sum ∧
    |(percentageShares [1, 1]).sum - 100| ≤ ((([1, 1] : List ℚ).length : ℕ) : ℚ) / 200 :=
  ⟨by decide!, c7_shares_sum [1, 1] (by decide!)⟩

/-- C10 counterexample: on an empty filtered table the "Highest Price"
metric is not reported as "N/A" — it is computed unguarded and displays
the non-finite value `NaN`. -/
theorem c10_counterexample :
    maxMetric [] = MetricDisplay.value PFloat.nan ∧ maxMetric [] ≠ MetricDisplay.na := by
  decide!

/-- C10 (corrected): only the percent-change statistic is guarded — it is
reported as "N/A" exactly when the filtered table has at most one row; the
min, max and mean statistics are computed unconditionally and, on an empty
filtered table, display the undefined value `NaN` instead of
"not applicable". -/
theorem c10_guards (prices : List ℚ) :
    (prices = [] → maxMetric prices = MetricDisplay.value PFloat.nan ∧
      minMetric prices = MetricDisplay.value PFloat.nan ∧
      meanMetric prices = MetricDisplay.value PFloat.nan ∧
      changeMetric prices = MetricDisplay.na) ∧
    (changeMetric prices = MetricDisplay.na ↔ prices.length ≤ 1) := by
  constructor
  · rintro rfl
    exact ⟨rfl, rfl, rfl, rfl⟩
  · constructor
    · intro h
      unfold changeMetric at h
      by_cases hl : 1 < prices.length
      · rw [if_pos hl] at h
        simp at h
      · omega
    · intro h
      unfold changeMetric
      rw [if_neg (by omega)]

/-- C10 witness: the guard behaviour evaluated on the empty table. -/
theorem c10_witness :
    maxMetric ([] : List ℚ) = MetricDisplay.value PFloat.nan ∧
    minMetric ([] : List ℚ) = MetricDisplay.value PFloat.nan ∧
    meanMetric ([] : List ℚ) = MetricDisplay.value PFloat.nan ∧
    changeMetric ([] : List ℚ) = MetricDisplay.na :=
  (c10_guards []).1 rfl

/-! ## Helper lemmas for the regional rollup -/

theorem sum_map_add {α : Type} (l : List α) (f g : α → ℚ) :
    (l.map (fun x => f x + g x)).sum = (l.map f).sum + (l.map g).sum := by
  induction l with
  | nil => simp
  | cons x xs ih =>
      simp only [List.map_cons, List.sum_cons, ih]
      ring

/-- The six region lists are pairwise disjoint (no state is listed twice). -/
theorem regions_nodup : (regions.flatMap (fun r => r.2)).Nodup := by
  decide!

/-- Summing an indicator over a family of pairwise-disjoint lists: the name
is found in at most one list, so the sum collapses to a single `if`. -/
theorem sum_ite_contains (n : String) (x : ℚ) :
    ∀ rs : List (String × List String), (rs.flatMap (fun r => r.2)).Nodup →
      (rs.map (fun r => if r.2.contains n then x else 0)).sum
        = if rs.any (fun r => r.2.contains n) then x else 0 := by
  intro rs
  induction rs with
  | nil => simp
  | cons r rs ih =>
      intro hnd
      rw [List.flatMap_cons, List.nodup_append] at hnd
      obtain ⟨h1, h2, hdisj⟩ := hnd
      by_cases hc : r.2.contains n
      · have hn1 : n ∈ r.2 := by simpa using hc
        have htail : ∀ r' ∈ rs, ¬(r'.2.contains n = true) := by
          intro r' hr' hcon
          have hn2 : n ∈ r'.2 := by simpa using hcon
          have hn3 : n ∈ rs.flatMap (fun r => r.2) := List.mem_flatMap.2 ⟨r', hr', hn2⟩
          exact hdisj hn1 hn3
        have hmap0 : rs.map (fun r' => if r'.2.contains n then x else 0)
            = rs.map (fun _ => (0 : ℚ)) :=
          List.map_congr_left (fun r' hr' => by rw [if_neg (htail r' hr')])
        have hz : (rs.map (fun _ => (0 : ℚ))).sum = 0 :=
          List.sum_eq_zero (fun y hy => by
            obtain ⟨_, _, rfl⟩ := List.mem_map.1 hy
            rfl)
        rw [List.map_cons, List.sum_cons, hmap0, if_pos hc, hz, add_zero,
          List.any_cons, hc, Bool.true_or, if_pos rfl]
      · have hcf : r.2.contains n = false := by simpa using hc
        rw [List.map_cons, List.sum_cons, if_neg hc, zero_add, ih h2,
          List.any_cons, hcf, Bool.false_or]

/-- One row's contribution to a region total. -/
theorem regionTotal_cons (a : String × ℚ) (rows : List (String × ℚ)) (sts : List String) :
    regionTotal (a :: rows) sts
      = (if sts.contains a.1 then a.2 else 0) + regionTotal rows sts := by
  unfold regionTotal
  rw [List.filter_cons]
  by_cases h : sts.contains a.1
  · rw [if_pos h, if_pos h, List.map_cons, List.sum_cons]
  · rw [if_neg h, if_neg h, zero_add]

/-- The per-region totals sum to the total over exactly the mapped states:
each state name occurs in at most one region list, so each mapped row is
counted exactly once and each unmapped row exactly zero times. -/
theorem sum_regionTotals (rows : List (String × ℚ)) :
    ((regionalRaw rows).map (fun r => r.2)).sum
      = ((rows.filter (fun s => inRegionMap s.1)).map (fun s => s.2)).sum := by
  have hL : ∀ rws : List (String × ℚ), (regionalRaw rws).map (fun r => r.2)
      = regions.map (fun r => regionTotal rws r.2) := by
    intro rws
    rw [regionalRaw, List.map_map]
    rfl
  induction rows with
  | nil =>
      rw [hL]
      decide!
  | cons a rows ih =>
      rw [hL] at ih ⊢
      have hstep : regions.map (fun r => regionTotal (a :: rows) r.2)
          = regions.map
              (fun r => (if r.2.contains a.1 then a.2 else 0) + regionTotal rows r.2) :=
        List.map_congr_left (fun r _ => regionTotal_cons a rows r.2)
      rw [hstep, sum_map_add, sum_ite_contains a.1 a.2 regions regions_nodup, ih]
      rw [List.filter_cons]
      by_cases h : inRegionMap a.1 = true
      · have h' : (regions.any fun r => r.2.contains a.1) = true := h
        rw [if_pos h', if_pos h, List.map_cons, List.sum_cons]
      · have h' : ¬((regions.any fun r => r.2.contains a.1) = true) := h
        rw [if_neg h', if_neg h, zero_add]

/-- C8 (confirmed): for every state-purchase table, the regional rollup
produces one row per region (six rows), a permutation of the in-map-order
per-region totals, sorted descending by total; every state absent from
every region list is silently dropped, so the rollup rows sum to the total
quantity of exactly the rows whose state appears in the region map. -/
theorem c8_regional_rollup (rows : List (String × ℚ)) :
    List.Perm (regional_df rows) (regionalRaw rows) ∧
    List.Sorted regOrder (regional_df rows) ∧
    (regional_df rows).length = 6 ∧
    ((regional_df rows).map (fun r => r.2)).sum
      = ((rows.filter (fun s => inRegionMap s.1)).map (fun s => s.2)).sum := by
  have hperm : List.Perm (regional_df rows) (regionalRaw rows) :=
    List.perm_insertionSort regOrder _
  refine ⟨hperm, List.sorted_insertionSort regOrder _, ?_, ?_⟩
  · rw [hperm.length_eq]
    simp [regionalRaw, regions]
  · rw [(hperm.map (fun r => r.2)).sum_eq, sum_regionTotals]

/-! ## Helper lemmas for the weekly rollup -/

theorem sum_map_one {β : Type} (l : List β) : (l.map (fun _ => (1 : ℕ))).sum = l.length := by
  induction l with
  | nil => rfl
  | cons x xs ih =>
      rw [List.map_cons, List.sum_cons, ih, List.length_cons]
      omega

/-- Partitioning a list by a key: summing `f` group-by-group over a
duplicate-free list of keys covering every row gives the total sum. -/
theorem sum_partition {α M : Type} [AddCommMonoid M] (key : α → ℕ) (f : α → M) :
    ∀ keys : List ℕ, keys.Nodup → ∀ rows : List α, (∀ r ∈ rows, key r ∈ keys) →
      (keys.map (fun w => ((rows.filter (fun r => key r == w)).map f).sum)).sum
        = (rows.map f).sum := by
  intro keys
  induction keys with
  | nil =>
      intro _ rows hmem
      have hnil : rows = [] :=
        List.eq_nil_iff_forall_not_mem.2 (fun r hr => by simpa using hmem r hr)
      subst hnil
      simp
  | cons w ks ih =>
      intro hnd rows hmem
      obtain ⟨hw, hnd'⟩ := List.nodup_cons.1 hnd
      have hperm := List.filter_append_perm (fun r => key r == w) rows
      have hsum : ((rows.filter (fun r => key r == w)).map f).sum
            + ((rows.filter (fun r => !(key r == w))).map f).sum
          = (rows.map f).sum := by
        have h := (hperm.map f).sum_eq
        rwa [List.map_append, List.sum_append] at h
      have htail : ∀ w' ∈ ks, rows.filter (fun r => key r == w')
          = (rows.filter (fun r => !(key r == w))).filter (fun r => key r == w') := by
        intro w' hw'
        have hne : w' ≠ w := fun hh => hw (hh ▸ hw')
        rw [List.filter_filter]
        apply List.filter_congr
        intro a _
        by_cases h : key a = w'
        · simp [h, hne]
        · simp [h]
      have hmem' : ∀ r ∈ rows.filter (fun r => !(key r == w)), key r ∈ ks := by
        intro r hr
        have h1 : r ∈ rows := List.mem_of_mem_filter hr
        have h2 : key r ∈ w :: ks := hmem r h1
        have h3 := List.of_mem_filter hr
        have h5 : key r ≠ w := by simpa using h3
        rcases List.mem_cons.1 h2 with h6 | h6
        · exact absurd h6 h5
        · exact h6
      rw [List.map_cons, List.sum_cons]
      have hmap : ks.map (fun w' => ((rows.filter (fun r => key r == w')).map f).sum)
          = ks.map (fun w' =>
              (((rows.filter (fun r => !(key r == w))).filter
                  (fun r => key r == w')).map f).sum) :=
        List.map_congr_left (fun w' hw' => by rw [htail w' hw'])
      rw [hmap, ih hnd' _ hmem', hsum]

/-- C9 (confirmed): for every daily series, the weekly rollup groups the
entries by ISO calendar week and returns, in strictly ascending week-id
order (sorted and duplicate-free), each week's sum, mean (= sum / count)
and day count; the day counts sum to the number of days in the series and
the per-week sums to the series total.  On the generated January 2026
series the boundary weeks are retained with their true day counts
4 and 5 (< 7), the full weeks with 7: counts [4, 7, 7, 7, 5]. -/
theorem c9_weekly_rollup (rows : List (ℕ × ℚ)) :
    List.Sorted (· ≤ ·) ((weekly_data rows).map (fun e => e.1)) ∧
    ((weekly_data rows).map (fun e => e.1)).Nodup ∧
    ((weekly_data rows).map (fun e => e.2.2.2)).sum = rows.length ∧
    ((weekly_data rows).map (fun e => e.2.1)).sum = (rows.map (fun r => r.2)).sum ∧
    List.Forall (fun e => e.2.2.1 = e.2.1 / (e.2.2.2 : ℚ)) (weekly_data rows) ∧
    (weekly_data load_india_january_data).map (fun e => (e.1, e.2.2.2))
      = [(1, 4), (2, 7), (3, 7), (4, 7), (5, 5)] := by
  have hkeys : (weekly_data rows).map (fun e => e.1) = weekKeys rows := by
    rw [weekly_data, List.map_map]
    exact List.map_id' _
  have hnd : (weekKeys rows).Nodup := by
    rw [weekKeys]
    exact (List.perm_insertionSort _ _).nodup_iff.2 (List.nodup_dedup _)
  have hmemkeys : ∀ r ∈ rows, isoWeek r.1 ∈ weekKeys rows := by
    intro r hr
    rw [weekKeys]
    rw [List.mem_insertionSort, List.mem_dedup]
    exact List.mem_map.2 ⟨r, hr, rfl⟩
  refine ⟨?_, ?_, ?_, ?_, ?_, by decide!⟩
  · rw [hkeys, weekKeys]
    exact List.sorted_insertionSort _ _
  · rw [hkeys]
    exact hnd
  · have h1 : (weekly_data rows).map (fun e => e.2.2.2)
        = (weekKeys rows).map
            (fun w => (rows.filter (fun r => isoWeek r.1 == w)).length) := by
      rw [weekly_data, List.map_map]
      exact List.map_congr_left (fun w _ => List.length_map _ _)
    have h2 : (weekKeys rows).map
          (fun w => (rows.filter (fun r => isoWeek r.1 == w)).length)
        = (weekKeys rows).map
            (fun w => ((rows.filter (fun r => isoWeek r.1 == w)).map
                (fun _ => (1 : ℕ))).sum) :=
      List.map_congr_left (fun w _ => (sum_map_one _).symm)
    rw [h1, h2,
      sum_partition (fun r : ℕ × ℚ => isoWeek r.1) (fun _ => (1 : ℕ))
        (weekKeys rows) hnd rows hmemkeys,
      sum_map_one]
  · have h1 : (weekly_data rows).map (fun e => e.2.1)
        = (weekKeys rows).map
            (fun w => ((rows.filter (fun r => isoWeek r.1 == w)).map
                (fun r => r.2)).sum) := by
      rw [weekly_data, List.map_map]
      rfl
    rw [h1,
      sum_partition (fun r : ℕ × ℚ => isoWeek r.1) (fun r => r.2)
        (weekKeys rows) hnd rows hmemkeys]
  · rw [List.forall_iff_forall_mem]
    intro e he
    rw [weekly_data] at he
    obtain ⟨w, _, rfl⟩ := List.mem_map.1 he
    rfl

/-- C2 witness: the window length, instantiated from the theorem. -/
theorem c2_witness : load_india_january_data.length = 30 :=
  c2_daily_window_structure.1

/-- C3 witness: two calls from different ambient generator states, equal
outputs. -/
theorem c3_witness :
    (load_india_january_data_from 0).1 = (load_india_january_data_from 1).1 :=
  (c3_deterministic 0 1).1

/-- C4 witness: the lower bound evaluated at day 1 from the seeded state. -/
theorem c4_witness : (542 : ℚ) ≤ (purchaseOfDay 1 (seedState 42)).1 :=
  c4_lower_bound 1 (seedState 42)

/-- C5 witness: the post-call generator state is the same fixed constant
from any two prior states. -/
theorem c5_witness :
    (load_india_january_data_from 0).2 = (load_india_january_data_from 99).2 :=
  (c5_state_clobbered 0 99).1

/-- C8 witness: on a table with one mapped state (Maharashtra, 10 kg) and
one state absent from the region map (Atlantis, 5 kg), the rollup totals
sum to the mapped 10 kg, not 15. -/
theorem c8_witness :
    ((regional_df [("Maharashtra", (10 : ℚ)), ("Atlantis", 5)]).map (fun r => r.2)).sum
      = (([("Maharashtra", (10 : ℚ)), ("Atlantis", 5)].filter
          (fun s => inRegionMap s.1)).map (fun s => s.2)).sum ∧
    (([("Maharashtra", (10 : ℚ)), ("Atlantis", 5)].filter
        (fun s => inRegionMap s.1)).map (fun s => s.2)).sum = 10 :=
  ⟨(c8_regional_rollup [("Maharashtra", (10 : ℚ)), ("Atlantis", 5)]).2.2.2, by decide!⟩

/-- C9 witness: on the generated January series the day counts sum to the
series length. -/
theorem c9_witness :
    ((weekly_data load_india_january_data).map (fun e => e.2.2.2)).sum
      = load_india_january_data.length :=
  (c9_weekly_rollup load_india_january_data).2.2.1

end SilverDash
